import Mathlib

/-!
Shallow embedding of `data/secscan_model/secscan_v4_model.py` (Quay's Clair V4
security-scanner coordination layer) and proofs about the claims of its
specification.

Conventions of the embedding:
* Python dicts appearing in remote reports are modelled as association lists
  (`List (String × _)`); lookup is first-match, mirroring dict key uniqueness.
* Machine timestamps (`datetime`) are modelled as integers; only comparison is
  ever performed on them.
* Fallible Python code (uncaught `KeyError` / `IndexError` / `TypeError`, or a
  raising store write) is modelled with `Option` / `Except`.
* External collaborators (the remote engine client, the relational store, the
  batch sampler `yield_random_entries`, the severity combinator
  `fetch_vuln_severity`) are modelled as explicit inputs: their answers for the
  run in question are parameters of the embedded functions.
-/

namespace SecscanV4

/-- `IndexReportState` namedtuple of the source (lines 53-55): the two terminal
report states recognised by the pipeline. -/
structure IndexReportStateT where
  Index_Finished : String
  Index_Error : String
deriving DecidableEq

/-- `IndexReportState = namedtuple(...)("IndexFinished", "IndexError")`. -/
def IndexReportState : IndexReportStateT :=
  { Index_Finished := "IndexFinished", Index_Error := "IndexError" }

/-- `IndexStatus` enum of `data.database` as used by this module. -/
inductive IndexStatus
  | completed
  | failed
  | in_progress
  | manifest_unsupported
deriving DecidableEq

/-- One `ManifestSecurityStatus` row as read back from the store (the fields
this module consults). -/
structure SecurityStatusRow where
  last_indexed : ℤ
  index_status : IndexStatus
  indexer_hash : String
deriving DecidableEq

/-- `ScanToken` (line 58): opaque continuation token holding only `min_id`. -/
structure ScanToken where
  min_id : ℤ
deriving DecidableEq

/-- Remote `index(manifest, layers)` call outcome for a given candidate:
`InvalidContentSent`, `APIRequestFailure`, or a `(report, state)` pair of which
the pipeline reads `report["state"]`, `report["err"]` and the engine state. -/
inductive RemoteIndexOutcome
  | invalidContent
  | apiFailure
  | ok (report_state : String) (report_err : String) (indexer_state : String)
deriving DecidableEq

/-- A candidate yielded by the (external) batch sampler, together with the
environment answers the pipeline will receive while processing it:
`manifestsecuritystatus` is the status row attached by the producing query's
join (absent for the not-yet-indexed query), `manifestsecuritystatus_set` is
the fresh backref query issued by `should_skip_indexing`, `layers` is what
`registry_model.list_manifest_layers` returns, `index_outcome` is what
`_secscan_api.index` returns, and `status_write_fails` says whether the
store-write transaction for this candidate raises. -/
structure ManifestCandidate where
  id : ℤ
  repository_id : ℤ
  is_manifest_list : Bool
  layers : Option (List Unit)
  manifestsecuritystatus : Option SecurityStatusRow
  manifestsecuritystatus_set : List SecurityStatusRow
  index_outcome : RemoteIndexOutcome
  status_write_fails : Bool
deriving DecidableEq

/-- The row content of one atomic delete-then-insert `ManifestSecurityStatus`
replacement performed by `_index`. -/
structure ManifestSecurityStatusWrite where
  manifest : ℤ
  repository : ℤ
  index_status : IndexStatus
  indexer_hash : String
  error_json : Option String
deriving DecidableEq

/-- Errors that escape the embedded functions: a raising store write
(propagated out of `_index`), the `TypeError` of `None - int`, and a raising
dict/list access inside `features_for`. -/
inductive PipelineError
  | storeUnavailable
  | typeError
  | lookupError
deriving DecidableEq

/-- `should_skip_indexing` (lines 310-318): a candidate is preempted when its
joined status row exists and is fresh (`last_indexed >= reindex_threshold`),
or - when the producing query attached no row - any status row now exists. -/
def should_skip_indexing (reindex_threshold : ℤ) (c : ManifestCandidate) : Bool :=
  match c.manifestsecuritystatus with
  | some mss => decide (reindex_threshold ≤ mss.last_indexed)
  | none => decide (0 < c.manifestsecuritystatus_set.length)

/-- The write performed by `mark_manifest_unsupported` (lines 295-308). -/
def unsupported_write (c : ManifestCandidate) : ManifestSecurityStatusWrite :=
  { manifest := c.id
    repository := c.repository_id
    index_status := IndexStatus.manifest_unsupported
    indexer_hash := "none"
    error_json := none }

/-- What one loop iteration of `_index` (lines 320-384) decides for a single
candidate: the status write it issues (if any) and whether it sets the
window's abort flag. -/
structure StepResult where
  write : Option ManifestSecurityStatusWrite
  abort : Bool
deriving DecidableEq

/-- One iteration of the `_index` loop body for a candidate, in source order:
manifest-list check, layer check, preemption check, remote submission, report
state interpretation, status write. -/
def indexStep (reindex_threshold : ℤ) (c : ManifestCandidate) : StepResult :=
  if c.is_manifest_list then { write := some (unsupported_write c), abort := false }
  else
    match c.layers with
    | none => { write := some (unsupported_write c), abort := false }
    | some [] => { write := some (unsupported_write c), abort := false }
    | some (_ :: _) =>
      if should_skip_indexing reindex_threshold c then { write := none, abort := true }
      else
        match c.index_outcome with
        | RemoteIndexOutcome.invalidContent =>
          { write := some (unsupported_write c), abort := false }
        | RemoteIndexOutcome.apiFailure => { write := none, abort := false }
        | RemoteIndexOutcome.ok st err hash =>
          if st = IndexReportState.Index_Finished then
            { write := some { manifest := c.id, repository := c.repository_id,
                              index_status := IndexStatus.completed,
                              indexer_hash := hash, error_json := some err }
              abort := false }
          else if st = IndexReportState.Index_Error then
            { write := some { manifest := c.id, repository := c.repository_id,
                              index_status := IndexStatus.failed,
                              indexer_hash := hash, error_json := some err }
              abort := false }
          else { write := none, abort := false }

/-- Trace of one `_index` run: candidates whose processing began, the writes
committed, and the store error that propagated to the caller, if any. -/
structure RunResult where
  attempted : List ℤ
  writes : List ManifestSecurityStatusWrite
  error : Option PipelineError
deriving DecidableEq

/-- The `_index` loop (lines 320-384) over the candidates the sampler yields.
A status write is not wrapped in any try/except, so a raising write
transaction terminates the loop and propagates. -/
def runIndex (reindex_threshold : ℤ) : List ManifestCandidate → RunResult
  | [] => { attempted := [], writes := [], error := none }
  | c :: rest =>
    match (indexStep reindex_threshold c).write with
    | none =>
      let rr := runIndex reindex_threshold rest
      { attempted := c.id :: rr.attempted, writes := rr.writes, error := rr.error }
    | some w =>
      if c.status_write_fails then
        { attempted := [c.id], writes := [], error := some PipelineError.storeUnavailable }
      else
        let rr := runIndex reindex_threshold rest
        { attempted := c.id :: rr.attempted, writes := w :: rr.writes, error := rr.error }

/-- The `start_index` selection of `perform_indexing` (lines 273-277). -/
def start_index_of (start_token : Option ScanToken) (min_manifest_id : Option ℤ) : Option ℤ :=
  match start_token with
  | some t => some t.min_id
  | none => min_manifest_id

/-- `perform_indexing` (lines 258-292). The remote `state()` answer, the
Max/Min id scalars and the sampler's yielded candidates are environment
inputs; `config_batch_size` and `batch_size` are kept for signature fidelity
(they only shape the external sampler's windows). -/
def perform_indexing (state_result : Except Unit String) (config_batch_size : ℕ)
    (reindex_threshold : ℤ) (max_id : Option ℤ) (min_manifest_id : Option ℤ)
    (candidates : List ManifestCandidate) (start_token : Option ScanToken)
    (batch_size : Option ℕ) : Except PipelineError (Option ScanToken) :=
  match state_result with
  | Except.error _ => Except.ok none
  | Except.ok _ =>
    match max_id, start_index_of start_token min_manifest_id with
    | none, _ => Except.ok none
    | some _, none => Except.ok none
    | some mx, some st =>
      if mx < st then Except.ok none
      else
        match (runIndex reindex_threshold candidates).error with
        | some e => Except.error e
        | none => Except.ok (some { min_id := mx + 1 })

/-- `perform_indexing_recent_manifests` (lines 232-256). When the Max(id)
scalar is `None` (empty manifest table), `end_index - batch_size` raises
`TypeError` before anything else happens. -/
def perform_indexing_recent_manifests (state_result : Except Unit String)
    (config_batch_size : ℕ) (reindex_threshold : ℤ) (max_manifest_id : Option ℤ)
    (candidates : List ManifestCandidate) (batch_size : Option ℕ) :
    Except PipelineError Unit :=
  match state_result with
  | Except.error _ => Except.ok ()
  | Except.ok _ =>
    let bs : ℕ :=
      match batch_size with
      | none => config_batch_size
      | some 0 => config_batch_size
      | some b => b
    match max_manifest_id with
    | none => Except.error PipelineError.typeError
    | some end_index =>
      let _start_index : ℤ := max (end_index - (bs : ℤ)) 1
      match (runIndex reindex_threshold candidates).error with
      | some e => Except.error e
      | none => Except.ok ()

/-- First-match lookup in an association-list model of a Python dict. -/
def dict_get {α : Type} (l : List (String × α)) (k : String) : Option α :=
  List.lookup k l

/-- One entry of `report["packages"]`: the fields this module reads. -/
structure PackageRec where
  name : String
  version : String
deriving DecidableEq

/-- One entry of an `report["environments"]` list. -/
structure EnvironmentRec where
  introduced_in : String
deriving DecidableEq

/-- One entry of `report["vulnerabilities"]`: the fields this module reads.
The always-present fields are total; `repository` and `distribution`
sub-fields are read with `.get` defaults and so are optional. -/
structure VulnerabilityRec where
  id : String
  name : String
  updater : String
  links : String
  fixed_in_version : String
  description : String
  repository_name : Option String
  repository_uri : Option String
  distribution_name : Option String
  distribution_version : Option String
deriving DecidableEq

/-- One enrichment candidate entry: CVSS base score and vector string. The
remote JSON number is modelled as an exact rational; the code only ever
compares scores. -/
structure EnrichmentRec where
  baseScore : ℚ
  vectorString : String
deriving DecidableEq

/-- A Clair v4 `VulnerabilityReport`, shaped as `features_for` consumes it.
`enrichments` models `report["enrichments"]`: the list of the dict's values
in order; each value is a list whose first element is a dict from
vulnerability id to candidate entries. -/
structure VulnerabilityReport where
  manifest_hash : String
  packages : List (String × PackageRec)
  environments : List (String × List EnvironmentRec)
  package_vulnerabilities : List (String × List String)
  vulnerabilities : List (String × VulnerabilityRec)
  enrichments : List (List (List (String × List EnrichmentRec)))
deriving DecidableEq

/-- `CVSSv3` of the internal schema. The score slot defaults to the Python
empty string when no enrichment entry exists, modelled as `none`. -/
structure CVSSv3 where
  vectors : String
  score : Option ℚ
deriving DecidableEq

/-- `NVD` of the internal schema. -/
structure NVD where
  cvssv3 : CVSSv3
deriving DecidableEq

/-- `Metadata` of the internal schema, as built by `features_for`. -/
structure VulnMetadata where
  UpdatedBy : String
  RepoName : Option String
  RepoLink : Option String
  DistroName : Option String
  DistroVersion : Option String
  nvd : NVD
deriving DecidableEq

/-- `Vulnerability` of the internal schema, as built by `features_for`. -/
structure Vulnerability where
  Severity : String
  NamespaceName : String
  Link : String
  FixedBy : String
  Description : String
  Name : String
  Metadata : VulnMetadata
deriving DecidableEq

/-- `Feature` of the internal schema, as built by `features_for`. -/
structure Feature where
  Name : String
  VersionFormat : String
  NamespaceName : String
  AddedBy : String
  Version : String
  Vulnerabilities : List Vulnerability
deriving DecidableEq

/-- `sorted(val, key=lambda x: x["baseScore"], reverse=True)[0]`: the entry
with the highest base score, earliest first among ties (Python's sort is
stable and `reverse=True` keeps the original order of equal keys); `none`
models the `IndexError` on an empty candidate list. -/
def best_enrichment : List EnrichmentRec → Option EnrichmentRec
  | [] => none
  | e :: es =>
    some (es.foldl (fun b x => if b.baseScore < x.baseScore then x else b) e)

/-- The per-package `enrichments` dict of `features_for` (lines 466-473):
empty when the report carries no enrichments, otherwise built from the first
element of the first enrichment source, keeping for each vulnerability id the
best-scoring candidate. `none` models the `IndexError` of `[0]` on an empty
first source. -/
def computeEnrichments (r : VulnerabilityReport) :
    Option (List (String × EnrichmentRec)) :=
  match r.enrichments with
  | [] => some []
  | firstSource :: _ =>
    match firstSource with
    | [] => none
    | d :: _ =>
      d.mapM (fun p => (best_enrichment p.2).map (fun e => (p.1, e)))

/-- The deduplication key of `features_for` (lines 455-461):
`pkg["name"] + "_" + pkg["version"] + "_" + vuln.get("name", "")`. -/
def vuln_key (pkg : PackageRec) (v : VulnerabilityRec) : String :=
  pkg.name ++ "_" ++ pkg.version ++ "_" ++ v.name

/-- The `Vulnerability(...)` constructor call of `features_for` (lines
482-505), parametrised by the external collaborator `fetch_vuln_severity`. -/
def to_vulnerability
    (fetch_vuln_severity : VulnerabilityRec → List (String × EnrichmentRec) → String)
    (enrichments : List (String × EnrichmentRec)) (v : VulnerabilityRec) :
    Vulnerability :=
  { Severity := fetch_vuln_severity v enrichments
    NamespaceName := v.updater
    Link := v.links
    FixedBy := if v.fixed_in_version ≠ "0" then v.fixed_in_version else ""
    Description := v.description
    Name := v.name
    Metadata :=
      { UpdatedBy := v.updater
        RepoName := v.repository_name
        RepoLink := v.repository_uri
        DistroName := v.distribution_name
        DistroVersion := v.distribution_version
        nvd :=
          { cvssv3 :=
              { vectors := ((dict_get enrichments v.id).map
                  EnrichmentRec.vectorString).getD ""
                score := (dict_get enrichments v.id).map
                  EnrichmentRec.baseScore } } } }

/-- The inner vulnerability-collection loop of `features_for` (lines
454-464) for one package: walks the package's vulnerability ids, appends a
vulnerability record the first time its key is seen, and always records the
key as seen. `none` models the `KeyError` of
`report["vulnerabilities"][vuln_id]`. -/
def collect_pkg_vulns (vulns : List (String × VulnerabilityRec))
    (pkg : PackageRec) :
    List String → List String → Option (List VulnerabilityRec × List String)
  | [], seen => some ([], seen)
  | vid :: rest, seen =>
    match dict_get vulns vid with
    | none => none
    | some v =>
      match collect_pkg_vulns vulns pkg rest (vuln_key pkg v :: seen) with
      | none => none
      | some (pv, seenOut) =>
        if seen.contains (vuln_key pkg v) then some (pv, seenOut)
        else some (v :: pv, seenOut)

/-- The outer package loop of `features_for` (lines 447-507), threading the
shared `dedupe_vulns` seen-key set across packages. `none` models a raising
dict/list access (`environments[pkg_id]`, its `[0]`, `vulnerabilities[...]`,
or the enrichment accesses). -/
def featuresForAux
    (fetch_vuln_severity : VulnerabilityRec → List (String × EnrichmentRec) → String)
    (r : VulnerabilityReport) :
    List (String × PackageRec) → List String → Option (List Feature × List String)
  | [], seen => some ([], seen)
  | (pid, pkg) :: rest, seen =>
    match dict_get r.environments pid with
    | none => none
    | some envs =>
      match envs.head? with
      | none => none
      | some pkg_env =>
        match collect_pkg_vulns r.vulnerabilities pkg
            ((dict_get r.package_vulnerabilities pid).getD []) seen with
        | none => none
        | some (pkg_vulns, seenNext) =>
          match computeEnrichments r with
          | none => none
          | some enrichments =>
            match featuresForAux fetch_vuln_severity r rest seenNext with
            | none => none
            | some (feats, seenOut) =>
              some ({ Name := pkg.name
                      VersionFormat := ""
                      NamespaceName := ""
                      AddedBy := pkg_env.introduced_in
                      Version := pkg.version
                      Vulnerabilities :=
                        pkg_vulns.map
                          (to_vulnerability fetch_vuln_severity enrichments) }
                    :: feats, seenOut)

/-- `features_for` (lines 442-509). -/
def features_for
    (fetch_vuln_severity : VulnerabilityRec → List (String × EnrichmentRec) → String)
    (r : VulnerabilityReport) : Option (List Feature) :=
  (featuresForAux fetch_vuln_severity r r.packages []).map Prod.fst

/-- `ScanLookupStatus` values used by this module. -/
inductive ScanLookupStatus
  | unsupported_for_indexing
  | not_yet_indexed
  | failed_to_index
deriving DecidableEq

/-- The `Layer(...)` value built by `load_security_information` (line 165):
positional arguments `(manifest_hash, "", "", 4, features)`. -/
structure SecscanLayer where
  hash : String
  field2 : String
  field3 : String
  field4 : ℕ
  Features : List Feature
deriving DecidableEq

/-- `SecurityInformation(layer)` wrapper. -/
structure SecurityInformation where
  Layer : SecscanLayer
deriving DecidableEq

/-- The three `SecurityInformationLookupResult` constructors this module
uses: `with_status`, `for_request_error`, `for_data`. -/
inductive SecurityInformationLookupResult
  | with_status (status : ScanLookupStatus)
  | for_request_error (message : String)
  | for_data (information : SecurityInformation)
deriving DecidableEq

/-- `load_security_information` (lines 129-166). Inputs: whether the argument
is a `Manifest` datatype, the stored status row (absence models
`DoesNotExist`), and the remote `vulnerability_report` answer
(`Except.error` models `APIRequestFailure`, `Except.ok none` a `None`
report). -/
def load_security_information
    (fetch_vuln_severity : VulnerabilityRec → List (String × EnrichmentRec) → String)
    (is_manifest : Bool) (status : Option SecurityStatusRow)
    (report_fetch : Except String (Option VulnerabilityReport)) :
    Except PipelineError SecurityInformationLookupResult :=
  if !is_manifest then
    Except.ok (SecurityInformationLookupResult.with_status
      ScanLookupStatus.unsupported_for_indexing)
  else
    match status with
    | none =>
      Except.ok (SecurityInformationLookupResult.with_status
        ScanLookupStatus.not_yet_indexed)
    | some s =>
      if s.index_status = IndexStatus.failed then
        Except.ok (SecurityInformationLookupResult.with_status
          ScanLookupStatus.failed_to_index)
      else if s.index_status = IndexStatus.manifest_unsupported then
        Except.ok (SecurityInformationLookupResult.with_status
          ScanLookupStatus.unsupported_for_indexing)
      else if s.index_status = IndexStatus.in_progress then
        Except.ok (SecurityInformationLookupResult.with_status
          ScanLookupStatus.not_yet_indexed)
      else
        match report_fetch with
        | Except.error msg =>
          Except.ok (SecurityInformationLookupResult.for_request_error msg)
        | Except.ok none =>
          Except.ok (SecurityInformationLookupResult.with_status
            ScanLookupStatus.not_yet_indexed)
        | Except.ok (some report) =>
          match features_for fetch_vuln_severity report with
          | none => Except.error PipelineError.lookupError
          | some fs =>
            Except.ok (SecurityInformationLookupResult.for_data
              { Layer := { hash := report.manifest_hash, field2 := "",
                           field3 := "", field4 := 4, Features := fs } })

/-- `PaginatedNotificationStatus` values. -/
inductive PaginatedNotificationStatus
  | fatalError
  | retryableError
  | success
deriving DecidableEq

/-- The raw page returned by `retrieve_notification_page`: the raw entries
(opaque to this layer, modelled as strings) and the optional
`page.next` continuation. -/
structure NotificationPageResults where
  notifications : List String
  page_next : Option String
deriving DecidableEq

/-- `PaginatedNotificationResult(status, data, next_page_index)`. -/
structure PaginatedNotificationResult where
  status : PaginatedNotificationStatus
  data : Option (List String)
  next_page_index : Option String
deriving DecidableEq

/-- `lookup_notification_page` (lines 386-407). `Except.error` models
`APIRequestFailure`; `Except.ok none` models the remote answering that the
notification set no longer exists. -/
def lookup_notification_page
    (fetch_result : Except Unit (Option NotificationPageResults)) :
    PaginatedNotificationResult :=
  match fetch_result with
  | Except.error _ =>
    { status := PaginatedNotificationStatus.retryableError
      data := none, next_page_index := none }
  | Except.ok none =>
    { status := PaginatedNotificationStatus.fatalError
      data := none, next_page_index := none }
  | Except.ok (some page) =>
    { status := PaginatedNotificationStatus.success
      data := some page.notifications
      next_page_index := page.page_next }

/-- `int(4 ** log10(max(10, max_id - min_id)))` (line 204). The Python float
computation is modelled over exact reals: `log10` as `Real.logb 10`, float
power as real power, and the `int()` truncation as `Int.floor` (the value is
positive, so truncation toward zero is the floor). -/
noncomputable def auto_batch_size (min_id max_id : ℤ) : ℤ :=
  Int.floor ((4 : ℝ) ^ Real.logb 10 ((max 10 (max_id - min_id) : ℤ) : ℝ))

/-- The `if not batch_size:` resolution of `_get_manifest_iterator` (lines
202-204): both an absent and a zero batch size are falsy and trigger the
auto-tuned formula. -/
noncomputable def manifest_iterator_batch_size (batch_size : Option ℕ)
    (min_id max_id : ℤ) : ℤ :=
  match batch_size with
  | none => auto_batch_size min_id max_id
  | some 0 => auto_batch_size min_id max_id
  | some b => (b : ℤ)

/-- A sampler candidate whose processing reaches the status write and whose
write transaction raises. -/
def failing_write_candidate : ManifestCandidate :=
  { id := 1
    repository_id := 10
    is_manifest_list := false
    layers := some [()]
    manifestsecuritystatus := none
    manifestsecuritystatus_set := []
    index_outcome := RemoteIndexOutcome.ok "IndexFinished" "" "hash-a"
    status_write_fails := false }

/-- A sampler candidate whose processing reaches the status write and whose
write transaction succeeds. -/
def healthy_candidate : ManifestCandidate :=
  { id := 2
    repository_id := 10
    is_manifest_list := false
    layers := some [()]
    manifestsecuritystatus := none
    manifestsecuritystatus_set := []
    index_outcome := RemoteIndexOutcome.ok "IndexFinished" "" "hash-a"
    status_write_fails := false }

/-- Claim C1: for a candidate that reaches the preemption check (it is not a
manifest list and its layer fetch returned a nonempty list), if a joined
status row exists with `last_indexed >= reindex_threshold`, or any status row
now exists although the producing query attached none, then the loop sets the
window's abort flag, writes no status record for the candidate, and moves on
to the next candidate. -/
theorem claim_C1_preemption_skips_without_write (th : ℤ) (c : ManifestCandidate)
    (rest : List ManifestCandidate)
    (hml : c.is_manifest_list = false)
    (hlay : ∃ l, c.layers = some l ∧ l ≠ [])
    (hpre : (∃ mss, c.manifestsecuritystatus = some mss ∧ th ≤ mss.last_indexed) ∨
      (c.manifestsecuritystatus = none ∧ c.manifestsecuritystatus_set ≠ [])) :
    indexStep th c = { write := none, abort := true } ∧
    runIndex th (c :: rest) =
      { attempted := c.id :: (runIndex th rest).attempted
        writes := (runIndex th rest).writes
        error := (runIndex th rest).error } := by
  have hskip : should_skip_indexing th c = true := by
    rcases hpre with ⟨mss, hm, hle⟩ | ⟨hm, hne⟩
    · simp [should_skip_indexing, hm, hle]
    · simp [should_skip_indexing, hm, List.length_pos, hne]
  have hstep : indexStep th c = { write := none, abort := true } := by
    obtain ⟨l, hl, hlne⟩ := hlay
    cases l with
    | nil => exact absurd rfl hlne
    | cons a as => simp [indexStep, hml, hl, hskip]
  refine ⟨hstep, ?_⟩
  simp [runIndex, hstep]

/-- Witness for claim C1 at a concrete preempted candidate. -/
theorem claim_C1_witness :
    indexStep 7 { healthy_candidate with
        manifestsecuritystatus := some
          { last_indexed := 9, index_status := IndexStatus.completed,
            indexer_hash := "hash-a" } } = { write := none, abort := true } ∧
    runIndex 7 [{ healthy_candidate with
        manifestsecuritystatus := some
          { last_indexed := 9, index_status := IndexStatus.completed,
            indexer_hash := "hash-a" } }] =
      { attempted := [2], writes := [], error := none } :=
  claim_C1_preemption_skips_without_write 7 _ []
    (by decide) ⟨[()], rfl, by decide⟩
    (Or.inl ⟨_, rfl, by decide⟩)

/-- Claim C2: for a candidate whose remote submission succeeds with
`(report, state)`, the loop writes a Completed status when
`report["state"]` is `"IndexFinished"`, a Failed status when it is
`"IndexError"`, and no status record at all for any other report state. -/
theorem claim_C2_report_state_interpretation (th : ℤ) (c : ManifestCandidate)
    (st err hash : String)
    (hml : c.is_manifest_list = false)
    (hlay : ∃ l, c.layers = some l ∧ l ≠ [])
    (hskip : should_skip_indexing th c = false)
    (hout : c.index_outcome = RemoteIndexOutcome.ok st err hash) :
    (st = IndexReportState.Index_Finished →
      indexStep th c =
        { write := some { manifest := c.id, repository := c.repository_id,
                          index_status := IndexStatus.completed,
                          indexer_hash := hash, error_json := some err }
          abort := false }) ∧
    (st = IndexReportState.Index_Error →
      indexStep th c =
        { write := some { manifest := c.id, repository := c.repository_id,
                          index_status := IndexStatus.failed,
                          indexer_hash := hash, error_json := some err }
          abort := false }) ∧
    (st ≠ IndexReportState.Index_Finished → st ≠ IndexReportState.Index_Error →
      indexStep th c = { write := none, abort := false }) := by
  obtain ⟨l, hl, hlne⟩ := hlay
  cases l with
  | nil => exact absurd rfl hlne
  | cons a as =>
    have hfe : IndexReportState.Index_Error ≠ IndexReportState.Index_Finished := by
      decide
    refine ⟨fun h => ?_, fun h => ?_, fun h1 h2 => ?_⟩
    · simp [indexStep, hml, hl, hskip, hout, h]
    · simp [indexStep, hml, hl, hskip, hout, h, hfe]
    · simp [indexStep, hml, hl, hskip, hout, h1, h2]

/-- Witness for claim C2 at concrete candidates in each of the three report
states. -/
theorem claim_C2_witness :
    indexStep 0 healthy_candidate =
      { write := some { manifest := 2, repository := 10,
                        index_status := IndexStatus.completed,
                        indexer_hash := "hash-a", error_json := some "" }
        abort := false } ∧
    indexStep 0 { healthy_candidate with
        index_outcome := RemoteIndexOutcome.ok "IndexError" "boom" "hash-a" } =
      { write := some { manifest := 2, repository := 10,
                        index_status := IndexStatus.failed,
                        indexer_hash := "hash-a", error_json := some "boom" }
        abort := false } ∧
    indexStep 0 { healthy_candidate with
        index_outcome := RemoteIndexOutcome.ok "IndexDeleted" "" "hash-a" } =
      { write := none, abort := false } :=
  ⟨(claim_C2_report_state_interpretation 0 healthy_candidate "IndexFinished" ""
      "hash-a" (by decide) ⟨[()], rfl, by decide⟩ (by decide) rfl).1 rfl,
   (claim_C2_report_state_interpretation 0 _ "IndexError" "boom"
      "hash-a" (by decide) ⟨[()], rfl, by decide⟩ (by decide) rfl).2.1 rfl,
   (claim_C2_report_state_interpretation 0 _ "IndexDeleted" ""
      "hash-a" (by decide) ⟨[()], rfl, by decide⟩ (by decide) rfl).2.2
     (by decide) (by decide)⟩

/-- Counterexample to claim C3 as stated: with a healthy `state()` answer and
a nonempty, non-inverted identifier range, a raising status-store write makes
`perform_indexing` propagate the failure instead of returning a `ScanToken`,
so "in every other case it returns a ScanToken" fails at this input. -/
theorem claim_C3_cex :
    perform_indexing (Except.ok "hash-a") 0 0 (some 5) (some 1)
      [{ failing_write_candidate with status_write_fails := true }] none none =
      Except.error PipelineError.storeUnavailable := by
  rfl

/-- Claim C3 as amended: `perform_indexing` returns `None` iff the remote
`state()` call fails, there is no maximum id, no starting id, or the start
exceeds the maximum; in every other case it returns the token
`max_id + 1` - unless a status-store write fails, in which case that failure
propagates instead of a token. -/
theorem claim_C3_amended_continuation_token (sr : Except Unit String)
    (cfg : ℕ) (th : ℤ) (mx mn : Option ℤ) (cands : List ManifestCandidate)
    (tok : Option ScanToken) (bs : Option ℕ) :
    (perform_indexing sr cfg th mx mn cands tok bs = Except.ok none ↔
      sr.toOption = none ∨ mx = none ∨ start_index_of tok mn = none ∨
      (∃ m s, mx = some m ∧ start_index_of tok mn = some s ∧ m < s)) ∧
    (∀ m s v, mx = some m → start_index_of tok mn = some s → ¬ m < s →
      sr = Except.ok v →
      ((runIndex th cands).error = none →
        perform_indexing sr cfg th mx mn cands tok bs =
          Except.ok (some { min_id := m + 1 })) ∧
      (∀ e, (runIndex th cands).error = some e →
        perform_indexing sr cfg th mx mn cands tok bs = Except.error e)) := by
  constructor
  · cases sr with
    | error e => simp [perform_indexing, Except.toOption]
    | ok v =>
      cases mx with
      | none => simp [perform_indexing, Except.toOption]
      | some m =>
        cases hsi : start_index_of tok mn with
        | none => simp [perform_indexing, hsi, Except.toOption]
        | some s =>
          by_cases hlt : m < s
          · simp [perform_indexing, hsi, Except.toOption, hlt]
          · cases he : (runIndex th cands).error with
            | none => simp [perform_indexing, hsi, Except.toOption, hlt, he]
            | some e => simp [perform_indexing, hsi, Except.toOption, hlt, he]
  · intro m s v hm hs hlt hv
    subst hm hv
    constructor
    · intro he
      simp [perform_indexing, hs, hlt, he]
    · intro e he
      simp [perform_indexing, hs, hlt, he]

/-- Witness for the amended claim C3 at a concrete healthy scan pass. -/
theorem claim_C3_amended_witness :
    perform_indexing (Except.ok "hash-a") 0 0 (some 5) (some 1)
      [healthy_candidate] none none = Except.ok (some { min_id := 5 + 1 }) :=
  ((claim_C3_amended_continuation_token (Except.ok "hash-a") 0 0 (some 5)
      (some 1) [healthy_candidate] none none).2
    5 1 "hash-a" rfl rfl (by decide) rfl).1 (by decide)

/-- Counterexample to claim C4 as stated: with two candidates in the window
and the first candidate's status write raising, the failure does propagate,
but the second candidate is never attempted - the loop body has no handler
for store errors, so the exception terminates the whole pass. -/
theorem claim_C4_cex :
    (runIndex 0 [{ failing_write_candidate with status_write_fails := true },
        healthy_candidate]).error = some PipelineError.storeUnavailable ∧
    healthy_candidate.id ∉
      (runIndex 0 [{ failing_write_candidate with status_write_fails := true },
        healthy_candidate]).attempted := by
  decide

/-- Claim C4 as amended: when a candidate's status-store write fails during an
indexing pass, the failure propagates to the caller of the pass and the pass
terminates at that candidate - none of the subsequent candidates of the
window are attempted. -/
theorem claim_C4_amended_store_failure_terminates (th : ℤ)
    (c : ManifestCandidate) (rest : List ManifestCandidate)
    (hw : (indexStep th c).write.isSome = true)
    (hf : c.status_write_fails = true) :
    runIndex th (c :: rest) =
      { attempted := [c.id], writes := []
        error := some PipelineError.storeUnavailable } := by
  cases hww : (indexStep th c).write with
  | none => rw [hww] at hw; simp at hw
  | some w => simp [runIndex, hww, hf]

/-- Witness for the amended claim C4 at a concrete failing write. -/
theorem claim_C4_amended_witness :
    runIndex 0 [{ failing_write_candidate with status_write_fails := true },
        healthy_candidate] =
      { attempted := [1], writes := []
        error := some PipelineError.storeUnavailable } :=
  claim_C4_amended_store_failure_terminates 0
    { failing_write_candidate with status_write_fails := true }
    [healthy_candidate] (by decide) (by decide)

/-- Claim C7: a notification page fetch yields RetryableError when the remote
call fails in transit, FatalError with no entries and no next-page token when
the remote reports the notification set gone, and Success with the raw
entries and the optional next-page token otherwise; the first two cases are
returned, not thrown (the embedded function is total). -/
theorem claim_C7_notification_page_classification :
    (∀ e : Unit, lookup_notification_page (Except.error e) =
      { status := PaginatedNotificationStatus.retryableError
        data := none, next_page_index := none }) ∧
    (lookup_notification_page (Except.ok none) =
      { status := PaginatedNotificationStatus.fatalError
        data := none, next_page_index := none }) ∧
    (∀ page, lookup_notification_page (Except.ok (some page)) =
      { status := PaginatedNotificationStatus.success
        data := some page.notifications
        next_page_index := page.page_next }) :=
  ⟨fun _ => rfl, rfl, fun _ => rfl⟩

/-- Claim C8: when no batch size is supplied, the computed batch size follows
`4 ^ log10(max(10, max_id - min_id))`; in particular a range of width 100
gives 16 and any range of width at most 10 floors at 4. -/
theorem claim_C8_auto_batch_size (min_id max_id : ℤ) :
    (max_id - min_id = 100 →
      manifest_iterator_batch_size none min_id max_id = 16) ∧
    (max_id - min_id ≤ 10 →
      manifest_iterator_batch_size none min_id max_id = 4) := by
  constructor
  · intro h
    have hm : max 10 (max_id - min_id) = 100 := by rw [h]; decide
    show auto_batch_size min_id max_id = 16
    rw [auto_batch_size, hm]
    have h100 : (((100 : ℤ) : ℝ)) = (10 : ℝ) ^ ((2 : ℕ) : ℝ) := by
      rw [Real.rpow_natCast]; norm_num
    rw [h100, Real.logb_rpow (by norm_num) (by norm_num),
      Real.rpow_natCast]
    rw [show ((4 : ℝ) ^ (2 : ℕ)) = ((16 : ℤ) : ℝ) by norm_num,
      Int.floor_intCast]
  · intro h
    have hm : max 10 (max_id - min_id) = 10 := max_eq_left h
    show auto_batch_size min_id max_id = 4
    rw [auto_batch_size, hm]
    have h10 : (((10 : ℤ) : ℝ)) = (10 : ℝ) ^ ((1 : ℕ) : ℝ) := by
      rw [Real.rpow_natCast]; norm_num
    rw [h10, Real.logb_rpow (by norm_num) (by norm_num),
      Real.rpow_natCast]
    rw [show ((4 : ℝ) ^ (1 : ℕ)) = ((4 : ℤ) : ℝ) by norm_num,
      Int.floor_intCast]

/-- Witness for claim C8 at the concrete ranges of the specification. -/
theorem claim_C8_witness :
    manifest_iterator_batch_size none 1 101 = 16 ∧
    manifest_iterator_batch_size none 0 5 = 4 :=
  ⟨(claim_C8_auto_batch_size 1 101).1 (by decide),
   (claim_C8_auto_batch_size 0 5).2 (by decide)⟩

/-- Claim C9: an artifact whose stored status is Completed but whose remote
vulnerability-report fetch succeeds with no report is answered NotYetIndexed,
and an artifact whose stored status is InProgress is answered NotYetIndexed
regardless of the remote answer. -/
theorem claim_C9_not_yet_indexed_answers
    (fsv : VulnerabilityRec → List (String × EnrichmentRec) → String)
    (li : ℤ) (hash : String) :
    (load_security_information fsv true
        (some { last_indexed := li, index_status := IndexStatus.completed,
                indexer_hash := hash })
        (Except.ok none) =
      Except.ok (SecurityInformationLookupResult.with_status
        ScanLookupStatus.not_yet_indexed)) ∧
    (∀ fetch, load_security_information fsv true
        (some { last_indexed := li, index_status := IndexStatus.in_progress,
                indexer_hash := hash })
        fetch =
      Except.ok (SecurityInformationLookupResult.with_status
        ScanLookupStatus.not_yet_indexed)) :=
  ⟨rfl, fun _ => rfl⟩

/-- Claim C10: `perform_indexing_recent_manifests` over an empty manifest
table: the Max(id) scalar is absent and the trailing-window computation
raises a `TypeError` instead of returning the nothing-to-do `None`; the
operation requires at least one manifest to exist. -/
theorem claim_C10_recent_manifests_needs_a_manifest (s : String) (cfg : ℕ)
    (th : ℤ) (cands : List ManifestCandidate) (bs : Option ℕ) :
    perform_indexing_recent_manifests (Except.ok s) cfg th none cands bs =
      Except.error PipelineError.typeError := by
  cases bs with
  | none => rfl
  | some b => cases b with
    | zero => rfl
    | succ n => rfl

/-- The comparison step of the descending stable sort on `baseScore`: the
running best is replaced only by a strictly larger score, so the earliest
maximal entry survives. -/
def pick_enrichment (b x : EnrichmentRec) : EnrichmentRec :=
  if b.baseScore < x.baseScore then x else b

theorem best_enrichment_foldl_seed_le (es : List EnrichmentRec) :
    ∀ b : EnrichmentRec,
      b.baseScore ≤ (es.foldl pick_enrichment b).baseScore := by
  induction es with
  | nil => intro b; exact le_refl _
  | cons x es ih =>
    intro b
    simp only [List.foldl_cons]
    refine le_trans ?_ (ih (pick_enrichment b x))
    by_cases h : b.baseScore < x.baseScore
    · simp [pick_enrichment, h, le_of_lt h]
    · simp [pick_enrichment, h]

theorem best_enrichment_foldl_mem_le (es : List EnrichmentRec) :
    ∀ (b x : EnrichmentRec), x ∈ es →
      x.baseScore ≤ (es.foldl pick_enrichment b).baseScore := by
  induction es with
  | nil => intro b x hx; cases hx
  | cons a es ih =>
    intro b x hx
    simp only [List.foldl_cons]
    rcases List.mem_cons.mp hx with rfl | hx
    · refine le_trans ?_ (best_enrichment_foldl_seed_le es (pick_enrichment b x))
      by_cases h : b.baseScore < x.baseScore
      · simp [pick_enrichment, h]
      · simp [pick_enrichment, h]
        exact le_of_not_lt h
    · exact ih (pick_enrichment b a) x hx

theorem best_enrichment_foldl_find (es : List EnrichmentRec) :
    ∀ b, (b :: es).find?
        (fun x => decide ((es.foldl pick_enrichment b).baseScore ≤ x.baseScore)) =
      some (es.foldl pick_enrichment b) := by
  induction es with
  | nil =>
    intro b
    simp only [List.foldl_nil]
    exact List.find?_cons_of_pos _ (by simp)
  | cons x es ih =>
    intro b
    simp only [List.foldl_cons]
    by_cases hbx : b.baseScore < x.baseScore
    · have hpx : pick_enrichment b x = x := if_pos hbx
      simp only [hpx]
      have hge : x.baseScore ≤ (es.foldl pick_enrichment x).baseScore :=
        best_enrichment_foldl_seed_le es x
      have hb : ¬ ((es.foldl pick_enrichment x).baseScore ≤ b.baseScore) :=
        not_le.mpr (lt_of_lt_of_le hbx hge)
      rw [List.find?_cons_of_neg _ (by simpa using hb)]
      exact ih x
    · have hpx : pick_enrichment b x = b := if_neg hbx
      simp only [hpx]
      have ihb := ih b
      by_cases hb : (es.foldl pick_enrichment b).baseScore ≤ b.baseScore
      · rw [List.find?_cons_of_pos _ (by simpa using hb)]
        rw [List.find?_cons_of_pos _ (by simpa using hb)] at ihb
        exact ihb
      · rw [List.find?_cons_of_neg _ (by simpa using hb)]
        rw [List.find?_cons_of_neg _ (by simpa using hb)] at ihb
        have hxb : x.baseScore ≤ b.baseScore := le_of_not_lt hbx
        have hx : ¬ ((es.foldl pick_enrichment b).baseScore ≤ x.baseScore) :=
          fun hc => hb (le_trans hc hxb)
        rw [List.find?_cons_of_neg _ (by simpa using hx)]
        exact ihb

/-- The selected enrichment entry has the maximal base score and is the first
entry whose score reaches that maximum (ties keep the original order). -/
theorem best_enrichment_spec (l : List EnrichmentRec) (e : EnrichmentRec)
    (h : best_enrichment l = some e) :
    (∀ x ∈ l, x.baseScore ≤ e.baseScore) ∧
    l.find? (fun x => decide (e.baseScore ≤ x.baseScore)) = some e := by
  cases l with
  | nil => cases h
  | cons b es =>
    have he : e = es.foldl pick_enrichment b := by
      have hh : best_enrichment (b :: es) = some (es.foldl pick_enrichment b) := rfl
      rw [hh] at h
      exact (Option.some.inj h).symm
    subst he
    constructor
    · intro x hx
      rcases List.mem_cons.mp hx with rfl | hx
      · exact best_enrichment_foldl_seed_le es x
      · exact best_enrichment_foldl_mem_le es b x hx
    · exact best_enrichment_foldl_find es b

/-- `features_for` reads the enrichments only through `computeEnrichments`:
two reports that differ only in `enrichments` but agree on the computed
per-vulnerability best entries normalize identically. -/
theorem featuresForAux_enrichments_congr
    (fsv : VulnerabilityRec → List (String × EnrichmentRec) → String)
    (r : VulnerabilityReport)
    (E1 E2 : List (List (List (String × List EnrichmentRec))))
    (h : computeEnrichments { r with enrichments := E1 } =
      computeEnrichments { r with enrichments := E2 }) :
    ∀ pkgs seen,
      featuresForAux fsv { r with enrichments := E1 } pkgs seen =
      featuresForAux fsv { r with enrichments := E2 } pkgs seen := by
  intro pkgs
  induction pkgs with
  | nil => intro seen; rfl
  | cons p rest ih =>
    intro seen
    obtain ⟨pid, pkg⟩ := p
    simp only [featuresForAux, h, ih]

/-- A report carrying one enrichment source with two candidate entries for
`"CVE-1"`, with base scores 7.5 and 9.0. -/
def tie_break_report : VulnerabilityReport :=
  { manifest_hash := "sha-m"
    packages := []
    environments := []
    package_vulnerabilities := []
    vulnerabilities := []
    enrichments := [[[("CVE-1",
      [{ baseScore := 15 / 2, vectorString := "vector-a" },
       { baseScore := 9, vectorString := "vector-b" }])]]] }

/-- Claim C6: the normalizer uses only the first enrichment source when
several are present (the output is independent of the later sources); for a
vulnerability id with several candidate entries it selects the entry with
the highest base score, ties broken by original order; and for candidate
base scores 7.5 and 9.0 it selects the 9.0 entry, hence its vector string
`"vector-b"`. -/
theorem claim_C6_enrichment_selection :
    (∀ (fsv : VulnerabilityRec → List (String × EnrichmentRec) → String)
       (r : VulnerabilityReport)
       (src : List (List (String × List EnrichmentRec)))
       (rest1 rest2 : List (List (List (String × List EnrichmentRec)))),
       features_for fsv { r with enrichments := src :: rest1 } =
       features_for fsv { r with enrichments := src :: rest2 }) ∧
    (∀ (l : List EnrichmentRec) (e : EnrichmentRec),
       best_enrichment l = some e →
       (∀ x ∈ l, x.baseScore ≤ e.baseScore) ∧
       l.find? (fun x => decide (e.baseScore ≤ x.baseScore)) = some e) ∧
    (computeEnrichments tie_break_report =
       some [("CVE-1", { baseScore := 9, vectorString := "vector-b" })]) := by
  refine ⟨?_, best_enrichment_spec, ?_⟩
  swap
  · have h : ((15 : ℚ) / 2) < 9 := by norm_num
    simp [computeEnrichments, tie_break_report, best_enrichment,
      pick_enrichment, List.mapM.loop, h]
  intro fsv r src rest1 rest2
  show (featuresForAux fsv { r with enrichments := src :: rest1 }
      r.packages []).map Prod.fst =
    (featuresForAux fsv { r with enrichments := src :: rest2 }
      r.packages []).map Prod.fst
  rw [featuresForAux_enrichments_congr fsv r (src :: rest1) (src :: rest2) rfl]

/-- Witness for claim C6 at the concrete 7.5 / 9.0 tie-break instance. -/
theorem claim_C6_witness :
    (∀ x ∈ [({ baseScore := 15 / 2, vectorString := "vector-a" } : EnrichmentRec),
            { baseScore := 9, vectorString := "vector-b" }],
       x.baseScore ≤
         ({ baseScore := 9, vectorString := "vector-b" } : EnrichmentRec).baseScore) ∧
    [({ baseScore := 15 / 2, vectorString := "vector-a" } : EnrichmentRec),
     { baseScore := 9, vectorString := "vector-b" }].find?
      (fun x => decide
        (({ baseScore := 9, vectorString := "vector-b" } : EnrichmentRec).baseScore
          ≤ x.baseScore)) =
      some { baseScore := 9, vectorString := "vector-b" } :=
  claim_C6_enrichment_selection.2.1
    [{ baseScore := 15 / 2, vectorString := "vector-a" },
     { baseScore := 9, vectorString := "vector-b" }]
    { baseScore := 9, vectorString := "vector-b" }
    (by
      have h : ((15 : ℚ) / 2) < 9 := by norm_num
      simp [best_enrichment, pick_enrichment, h])

/-- The flat (dedupe key, vulnerability record) entry sequence of one
package, in the order the inner loop of `features_for` encounters it. -/
def pkg_entries (vulns : List (String × VulnerabilityRec)) (pkg : PackageRec) :
    List String → Option (List (String × VulnerabilityRec))
  | [] => some []
  | vid :: rest =>
    match dict_get vulns vid with
    | none => none
    | some v =>
      (pkg_entries vulns pkg rest).map (fun es => (vuln_key pkg v, v) :: es)

/-- The flat encounter-ordered entry sequence of a report, package by
package, as walked by `features_for`. -/
def report_entries_from (r : VulnerabilityReport) :
    List (String × PackageRec) → Option (List (String × VulnerabilityRec))
  | [] => some []
  | (pid, pkg) :: rest =>
    match pkg_entries r.vulnerabilities pkg
        ((dict_get r.package_vulnerabilities pid).getD []) with
    | none => none
    | some es =>
      match report_entries_from r rest with
      | none => none
      | some tail => some (es ++ tail)

/-- All package-vulnerability entries of a report in encounter order. -/
def report_entries (r : VulnerabilityReport) :
    Option (List (String × VulnerabilityRec)) :=
  report_entries_from r r.packages

/-- Reference first-occurrence deduplication over a flat entry sequence,
threading the seen-key set exactly as the shared `dedupe_vulns` dict does. -/
def dedupe_spec : List (String × VulnerabilityRec) → List String →
    List (String × VulnerabilityRec) × List String
  | [], seen => ([], seen)
  | (k, v) :: rest, seen =>
    let r := dedupe_spec rest (k :: seen)
    (if seen.contains k then r.1 else (k, v) :: r.1, r.2)

/-- The (dedupe key, vulnerability) pairs of one output Feature; the key is
recomputed from the Feature's own package name, package version and the
vulnerability name. -/
def feature_key_pairs (f : Feature) : List (String × Vulnerability) :=
  f.Vulnerabilities.map
    (fun v => (f.Name ++ "_" ++ f.Version ++ "_" ++ v.Name, v))

/-- All (dedupe key, vulnerability) pairs of a normalized output, in order. -/
def out_pairs (fs : List Feature) : List (String × Vulnerability) :=
  (fs.map feature_key_pairs).flatten

theorem out_pairs_cons (f : Feature) (fs : List Feature) :
    out_pairs (f :: fs) = feature_key_pairs f ++ out_pairs fs := rfl

/-- The inner loop of `features_for` equals the reference deduplication of
the package's flat entry sequence. -/
theorem collect_pkg_vulns_eq (vulns : List (String × VulnerabilityRec))
    (pkg : PackageRec) :
    ∀ (vids seen : List String),
      collect_pkg_vulns vulns pkg vids seen =
        (pkg_entries vulns pkg vids).map
          (fun es => ((dedupe_spec es seen).1.map Prod.snd,
                      (dedupe_spec es seen).2)) := by
  intro vids
  induction vids with
  | nil => intro seen; rfl
  | cons vid rest ih =>
    intro seen
    simp only [collect_pkg_vulns, pkg_entries]
    cases hdv : dict_get vulns vid with
    | none => rfl
    | some v =>
      dsimp only
      rw [ih (vuln_key pkg v :: seen)]
      cases hpe : pkg_entries vulns pkg rest with
      | none => rfl
      | some es =>
        by_cases hc : vuln_key pkg v ∈ seen <;>
          simp [dedupe_spec, hc]

theorem dedupe_spec_append :
    ∀ (es1 es2 : List (String × VulnerabilityRec)) (seen : List String),
      dedupe_spec (es1 ++ es2) seen =
        ((dedupe_spec es1 seen).1 ++
           (dedupe_spec es2 (dedupe_spec es1 seen).2).1,
         (dedupe_spec es2 (dedupe_spec es1 seen).2).2) := by
  intro es1
  induction es1 with
  | nil => intro es2 seen; rfl
  | cons p rest ih =>
    intro es2 seen
    obtain ⟨k, v⟩ := p
    simp only [List.cons_append, dedupe_spec]
    rw [show List.append rest es2 = rest ++ es2 from rfl, ih es2 (k :: seen)]
    by_cases hc : k ∈ seen <;> simp [hc]

/-- Every entry produced by `pkg_entries` carries its own dedupe key. -/
theorem pkg_entries_key (vulns : List (String × VulnerabilityRec))
    (pkg : PackageRec) :
    ∀ (vids : List String) (es : List (String × VulnerabilityRec)),
      pkg_entries vulns pkg vids = some es →
      ∀ p ∈ es, p.1 = vuln_key pkg p.2 := by
  intro vids
  induction vids with
  | nil =>
    intro es h p hp
    have he := Option.some.inj h
    subst he
    cases hp
  | cons vid rest ih =>
    intro es h p hp
    simp only [pkg_entries] at h
    cases hdv : dict_get vulns vid with
    | none => rw [hdv] at h; cases h
    | some v =>
      rw [hdv] at h
      cases hpe : pkg_entries vulns pkg rest with
      | none => rw [hpe] at h; cases h
      | some es0 =>
        rw [hpe] at h
        simp only [Option.map, Option.some.injEq] at h
        subst h
        rcases List.mem_cons.mp hp with rfl | hp
        · rfl
        · exact ih es0 hpe p hp

/-- Every kept entry of the reference deduplication comes from the input. -/
theorem dedupe_spec_sub :
    ∀ (es : List (String × VulnerabilityRec)) (seen : List String)
      (p : String × VulnerabilityRec),
      p ∈ (dedupe_spec es seen).1 → p ∈ es := by
  intro es
  induction es with
  | nil => intro seen p hp; cases hp
  | cons q rest ih =>
    intro seen p hp
    obtain ⟨k, v⟩ := q
    by_cases hc : k ∈ seen
    · have hp' : p ∈ (dedupe_spec rest (k :: seen)).1 := by
        simpa [dedupe_spec, hc] using hp
      exact List.mem_cons_of_mem _ (ih (k :: seen) p hp')
    · have hp' : p = (k, v) ∨ p ∈ (dedupe_spec rest (k :: seen)).1 := by
        simpa [dedupe_spec, hc] using hp
      rcases hp' with rfl | hp'
      · exact List.mem_cons_self _ _
      · exact List.mem_cons_of_mem _ (ih (k :: seen) p hp')

/-- The kept keys of the reference deduplication are pairwise distinct and
avoid the initial seen set. -/
theorem dedupe_spec_keys :
    ∀ (es : List (String × VulnerabilityRec)) (seen : List String),
      ((dedupe_spec es seen).1.map Prod.fst).Nodup ∧
      ∀ k ∈ (dedupe_spec es seen).1.map Prod.fst, ¬ k ∈ seen := by
  intro es
  induction es with
  | nil =>
    intro seen
    exact ⟨List.nodup_nil, by intro k hk; cases hk⟩
  | cons q rest ih =>
    intro seen
    obtain ⟨k, v⟩ := q
    have h1 := ih (k :: seen)
    by_cases hc : k ∈ seen
    · constructor
      · simpa [dedupe_spec, hc] using h1.1
      · intro k0 hk0 hk0seen
        exact h1.2 k0 (by simpa [dedupe_spec, hc] using hk0)
          (List.mem_cons_of_mem _ hk0seen)
    · have hnotk : ¬ k ∈ (dedupe_spec rest (k :: seen)).1.map Prod.fst :=
        fun hk => (h1.2 k hk) (List.mem_cons_self _ _)
      have hnd : (((k, v) :: (dedupe_spec rest (k :: seen)).1).map
          Prod.fst).Nodup := by
        rw [List.map_cons]
        exact List.nodup_cons.mpr ⟨hnotk, h1.1⟩
      constructor
      · simpa [dedupe_spec, hc] using hnd
      · intro k0 hk0 hk0seen
        have hk0' : k0 = k ∨
            k0 ∈ (dedupe_spec rest (k :: seen)).1.map Prod.fst := by
          simpa [dedupe_spec, hc] using hk0
        rcases hk0' with rfl | hk0'
        · exact hc hk0seen
        · exact h1.2 k0 hk0' (List.mem_cons_of_mem _ hk0seen)

/-- Every kept entry of the reference deduplication is the first entry of
the input with its key. -/
theorem dedupe_spec_find :
    ∀ (es : List (String × VulnerabilityRec)) (seen : List String)
      (p : String × VulnerabilityRec), p ∈ (dedupe_spec es seen).1 →
      es.find? (fun q => q.1 == p.1) = some p := by
  intro es
  induction es with
  | nil => intro seen p hp; cases hp
  | cons q rest ih =>
    intro seen p hp
    obtain ⟨k, v⟩ := q
    by_cases hc : k ∈ seen
    · have hp' : p ∈ (dedupe_spec rest (k :: seen)).1 := by
        simpa [dedupe_spec, hc] using hp
      have hne : p.1 ≠ k := by
        intro he
        exact (dedupe_spec_keys rest (k :: seen)).2 p.1
          (List.mem_map_of_mem _ hp') (he ▸ List.mem_cons_self _ _)
      rw [List.find?_cons_of_neg _ (by simpa using Ne.symm hne)]
      exact ih (k :: seen) p hp'
    · have hp' : p = (k, v) ∨ p ∈ (dedupe_spec rest (k :: seen)).1 := by
        simpa [dedupe_spec, hc] using hp
      rcases hp' with rfl | hp'
      · exact List.find?_cons_of_pos _ (by simp)
      · have hne : p.1 ≠ k := by
          intro he
          exact (dedupe_spec_keys rest (k :: seen)).2 p.1
            (List.mem_map_of_mem _ hp') (he ▸ List.mem_cons_self _ _)
        rw [List.find?_cons_of_neg _ (by simpa using Ne.symm hne)]
        exact ih (k :: seen) p hp'

/-- Every input key not already seen is represented among the kept
entries. -/
theorem dedupe_spec_complete :
    ∀ (es : List (String × VulnerabilityRec)) (seen : List String)
      (k : String) (v : VulnerabilityRec), (k, v) ∈ es → ¬ k ∈ seen →
      ∃ w, (k, w) ∈ (dedupe_spec es seen).1 := by
  intro es
  induction es with
  | nil => intro seen k v hm; cases hm
  | cons q rest ih =>
    intro seen k v hm hks
    obtain ⟨k1, v1⟩ := q
    by_cases hc : k1 ∈ seen
    · rcases List.mem_cons.mp hm with he | hm'
      · have hk : k = k1 := congrArg Prod.fst he
        exact absurd (hk ▸ hc) hks
      · have hk1 : k ≠ k1 := fun he => hks (he ▸ hc)
        obtain ⟨w, hw⟩ := ih (k1 :: seen) k v hm' (by
          intro hmem
          rcases List.mem_cons.mp hmem with he | hseen
          · exact hk1 he
          · exact hks hseen)
        exact ⟨w, by simpa [dedupe_spec, hc] using hw⟩
    · by_cases hkk : k = k1
      · subst hkk
        refine ⟨v1, ?_⟩
        simp [dedupe_spec, hc]
      · rcases List.mem_cons.mp hm with he | hm'
        · exact absurd (congrArg Prod.fst he) hkk
        · obtain ⟨w, hw⟩ := ih (k1 :: seen) k v hm' (by
            intro hmem
            rcases List.mem_cons.mp hmem with he | hseen
            · exact hkk he
            · exact hks hseen)
          refine ⟨w, ?_⟩
          have : (k, w) ∈ (k1, v1) :: (dedupe_spec rest (k1 :: seen)).1 :=
            List.mem_cons_of_mem _ hw
          simpa [dedupe_spec, hc] using this

/-- The output of the outer loop of `features_for` is, entrywise, the
reference deduplication of the flat entry sequence, with each kept record
normalized by `to_vulnerability`; the final seen set is threaded through
identically. -/
theorem featuresForAux_entries
    (fsv : VulnerabilityRec → List (String × EnrichmentRec) → String)
    (r : VulnerabilityReport) (enr : List (String × EnrichmentRec))
    (hen : computeEnrichments r = some enr) :
    ∀ (pkgs : List (String × PackageRec)) (seen : List String)
      (fs : List Feature) (seenOut : List String)
      (es : List (String × VulnerabilityRec)),
      featuresForAux fsv r pkgs seen = some (fs, seenOut) →
      report_entries_from r pkgs = some es →
      out_pairs fs = (dedupe_spec es seen).1.map
        (fun p => (p.1, to_vulnerability fsv enr p.2)) ∧
      seenOut = (dedupe_spec es seen).2 := by
  intro pkgs
  induction pkgs with
  | nil =>
    intro seen fs seenOut es haux hent
    simp only [featuresForAux, Option.some.injEq, Prod.mk.injEq] at haux
    simp only [report_entries_from, Option.some.injEq] at hent
    obtain ⟨rfl, rfl⟩ := haux
    subst hent
    exact ⟨rfl, rfl⟩
  | cons pp rest ih =>
    intro seen fs seenOut es haux hent
    obtain ⟨pid, pkg⟩ := pp
    simp only [featuresForAux] at haux
    simp only [report_entries_from] at hent
    cases hde : dict_get r.environments pid with
    | none => rw [hde] at haux; cases haux
    | some envs =>
      rw [hde] at haux
      dsimp only at haux
      cases hhd : envs.head? with
      | none => rw [hhd] at haux; cases haux
      | some pkg_env =>
        rw [hhd] at haux
        dsimp only at haux
        rw [collect_pkg_vulns_eq] at haux
        cases hpe : pkg_entries r.vulnerabilities pkg
            ((dict_get r.package_vulnerabilities pid).getD []) with
        | none =>
          rw [hpe] at haux
          cases haux
        | some es1 =>
          rw [hpe] at haux hent
          simp only [Option.map, hen] at haux
          cases hrest : featuresForAux fsv r rest ((dedupe_spec es1 seen).2) with
          | none => rw [hrest] at haux; cases haux
          | some pr =>
            obtain ⟨feats, seenOut1⟩ := pr
            rw [hrest] at haux
            simp only [Option.some.injEq, Prod.mk.injEq] at haux
            obtain ⟨rfl, rfl⟩ := haux
            cases hre : report_entries_from r rest with
            | none => rw [hre] at hent; cases hent
            | some tail =>
              rw [hre] at hent
              simp only [Option.some.injEq] at hent
              subst hent
              obtain ⟨hA, hB⟩ := ih ((dedupe_spec es1 seen).2) feats seenOut1
                tail hrest hre
              rw [dedupe_spec_append es1 tail seen]
              constructor
              · have hfeat : feature_key_pairs
                    { Name := pkg.name, VersionFormat := "",
                      NamespaceName := "", AddedBy := pkg_env.introduced_in,
                      Version := pkg.version,
                      Vulnerabilities :=
                        ((dedupe_spec es1 seen).1.map Prod.snd).map
                          (to_vulnerability fsv enr) } =
                    (dedupe_spec es1 seen).1.map
                      (fun p => (p.1, to_vulnerability fsv enr p.2)) := by
                  simp only [feature_key_pairs, List.map_map]
                  refine List.map_eq_map_iff.mpr (fun p hp => ?_)
                  have h1 := pkg_entries_key r.vulnerabilities pkg _ es1 hpe p
                    (dedupe_spec_sub es1 seen p hp)
                  simp only [Function.comp]
                  rw [show (to_vulnerability fsv enr p.2).Name = p.2.name from rfl]
                  rw [h1, vuln_key]
                rw [out_pairs_cons, hfeat, hA, List.map_append]
              · exact hB

/-- Claim C5: in the normalized output, the dedupe keys (package name,
package version, vulnerability name) are pairwise distinct; every key of the
report's flat entry sequence is represented; and every output entry is the
normalization of the first entry of the sequence carrying its key - so for
two entries with an identical key (for example the same vulnerability via
two source repositories) exactly one output entry exists and it is the first
one encountered, the later duplicates being dropped. -/
theorem claim_C5_first_occurrence_dedup
    (fsv : VulnerabilityRec → List (String × EnrichmentRec) → String)
    (r : VulnerabilityReport) (fs : List Feature)
    (es : List (String × VulnerabilityRec))
    (enr : List (String × EnrichmentRec))
    (hf : features_for fsv r = some fs)
    (he : report_entries r = some es)
    (hen : computeEnrichments r = some enr) :
    ((out_pairs fs).map Prod.fst).Nodup ∧
    (∀ k v, (k, v) ∈ es → ∃ w, (k, w) ∈ out_pairs fs) ∧
    (∀ p ∈ out_pairs fs, ∃ v,
      es.find? (fun q => q.1 == p.1) = some (p.1, v) ∧
      p.2 = to_vulnerability fsv enr v) := by
  unfold features_for at hf
  cases haux : featuresForAux fsv r r.packages [] with
  | none => rw [haux] at hf; cases hf
  | some pr =>
    obtain ⟨fs0, seenOut⟩ := pr
    rw [haux] at hf
    simp only [Option.map, Option.some.injEq] at hf
    subst hf
    obtain ⟨hA, _hB⟩ := featuresForAux_entries fsv r enr hen r.packages []
      fs0 seenOut es haux he
    refine ⟨?_, ?_, ?_⟩
    · rw [hA, List.map_map]
      exact (dedupe_spec_keys es []).1
    · intro k v hm
      obtain ⟨w, hw⟩ := dedupe_spec_complete es [] k v hm (by simp)
      refine ⟨to_vulnerability fsv enr w, ?_⟩
      rw [hA]
      exact List.mem_map_of_mem _ hw
    · intro p hp
      rw [hA] at hp
      obtain ⟨q, hq, hgq⟩ := List.mem_map.mp hp
      subst hgq
      have hfind := dedupe_spec_find es [] q hq
      exact ⟨q.2, by simpa using hfind, rfl⟩

/-- One of two vulnerability records sharing the dedupe key, reported via
source repository `repo-a`. -/
def dup_vuln_a : VulnerabilityRec :=
  { id := "v1"
    name := "CVE-X"
    updater := "upd"
    links := "http-a"
    fixed_in_version := "0"
    description := "descr"
    repository_name := some "repo-a"
    repository_uri := some "uri-a"
    distribution_name := none
    distribution_version := none }

/-- The duplicate of `dup_vuln_a`, reported via source repository
`repo-b`. -/
def dup_vuln_b : VulnerabilityRec :=
  { dup_vuln_a with
    id := "v2"
    links := "http-b"
    repository_name := some "repo-b"
    repository_uri := some "uri-b" }

/-- A report in which one package carries the same vulnerability name twice,
once per source repository. -/
def dup_report : VulnerabilityReport :=
  { manifest_hash := "sha-m"
    packages := [("p1", { name := "openssl", version := "1.1.1" })]
    environments := [("p1", [{ introduced_in := "sha-layer" }])]
    package_vulnerabilities := [("p1", ["v1", "v2"])]
    vulnerabilities := [("v1", dup_vuln_a), ("v2", dup_vuln_b)]
    enrichments := [] }

/-- A fixed severity combinator standing in for the external
`fetch_vuln_severity` collaborator in the concrete runs. -/
def dup_severity : VulnerabilityRec → List (String × EnrichmentRec) → String :=
  fun _ _ => "High"

/-- The normalized output of `dup_report`. -/
def dup_features : List Feature :=
  (features_for dup_severity dup_report).getD []

/-- The flat entry sequence of `dup_report`. -/
def dup_entries : List (String × VulnerabilityRec) :=
  (report_entries dup_report).getD []

/-- Witness for claim C5 at the concrete duplicated report. -/
theorem claim_C5_witness :
    ((out_pairs dup_features).map Prod.fst).Nodup ∧
    (∀ k v, (k, v) ∈ dup_entries → ∃ w, (k, w) ∈ out_pairs dup_features) ∧
    (∀ p ∈ out_pairs dup_features, ∃ v,
      dup_entries.find? (fun q => q.1 == p.1) = some (p.1, v) ∧
      p.2 = to_vulnerability dup_severity [] v) :=
  claim_C5_first_occurrence_dedup dup_severity dup_report dup_features
    dup_entries [] (by rfl) (by rfl) (by rfl)

end SecscanV4
